import Mathlib

/-!
Verification development for the ScribeAI session/transcription server.

The definitions below are a shallow embedding of the server's socket event
handlers (`scribeai-server/src/sockets/recording.ts`) and of the summary
post-processing in `scribeai-server/src/lib/gemini.ts`:

* `SessionData` mirrors the in-memory `SessionData` interface field by field
  (timestamps are `Int` milliseconds, audio buffers are opaque byte lists).
* `ServerState` carries the in-memory `activeSessions` map together with the
  rows the handlers write to the `sessions`, `transcript_chunks` and
  `transcripts` tables (a `supabase.insert` with an existing id returns an
  error that the handlers log and ignore, so it is modelled as a no-op;
  `update(...).eq('id', ...)` updates the row when present).
* Each socket handler becomes a function `ServerState → ... → ServerState ×
  List Emit`, where `Emit` lists the socket emissions the handler performs.
  Asynchronous transcription completion and failure (the `.then`/`.catch`
  callbacks attached in the `audio-chunk` handler) become separate events,
  since they run unordered relative to everything else.  The callbacks hold
  the session object by reference; the embedding reaches it through its id in
  the registry, and still records the database insert and emission when the
  session has been deregistered, as the captured reference would.
* The external `generateSummary` call either returns or throws; the `stop`
  handler is therefore parameterised by the boolean outcome `summaryOk`.
  The two `await`s inside `stop-session` (a 2 s grace timer and the summary
  call) allow interleavings that are represented by ordering events before
  the `stop` event in a trace.
* `pausedAt` is `undefined` or a `Date.now()` timestamp; the JS truthiness
  tests `!session.pausedAt` / `if (session.pausedAt)` are modelled as
  `Option` emptiness (the timestamp 0 is not produced by any real clock).
-/

namespace ScribeAI

inductive AudioSource
| microphone
| tab_share
deriving DecidableEq, Repr

/-- The `status` column of the `sessions` table (see `lib/supabase.ts`). -/
inductive SessionStatus
| recording
| paused
| processing
| completed
| failed
deriving DecidableEq, Repr

/-- Opaque audio bytes (`Buffer`). -/
abbrev AudioBuffer := List Nat

/-- In-memory per-session record: the `SessionData` interface of
`sockets/recording.ts` (lines 10–20). -/
structure SessionData where
  sessionId : String
  userId : Option String
  audioChunks : List AudioBuffer
  transcriptChunks : List String
  chunkIndex : Nat
  startTime : Int
  pausedAt : Option Int
  totalPausedDuration : Int
  audioSource : AudioSource
deriving DecidableEq, Repr

/-- The fields of a `sessions` table row that the handlers read or write. -/
structure SessionRow where
  status : SessionStatus
  duration : Int
deriving DecidableEq, Repr

/-- A `transcript_chunks` table row (fields the handlers write). -/
structure ChunkRow where
  session_id : String
  chunk_index : Nat
  text : String
deriving DecidableEq, Repr

/-- A `transcripts` table row (fields the handlers write). -/
structure TranscriptRow where
  session_id : String
  full_text : String
deriving DecidableEq, Repr

/-- Association-list model of a JS `Map` keyed by session id: lookup returns
the first binding. -/
def mapGet {α : Type} (m : List (String × α)) (k : String) : Option α :=
  match m with
  | [] => none
  | (k', v) :: rest => if k' = k then some v else mapGet rest k

/-- `Map.set`: replace the existing binding in place, else append. -/
def mapSet {α : Type} (m : List (String × α)) (k : String) (v : α) :
    List (String × α) :=
  match m with
  | [] => [(k, v)]
  | (k', v') :: rest =>
      if k' = k then (k, v) :: rest else (k', v') :: mapSet rest k v

/-- `Map.delete`. -/
def mapDelete {α : Type} (m : List (String × α)) (k : String) :
    List (String × α) :=
  m.filter (fun kv => kv.1 ≠ k)

/-- `supabase.from('sessions').insert({...})`: fails (error ignored by the
handlers) when the id already exists, so the existing row is untouched. -/
def sessionsInsert (tbl : List (String × SessionRow)) (sid : String)
    (row : SessionRow) : List (String × SessionRow) :=
  match mapGet tbl sid with
  | some _ => tbl
  | none => tbl ++ [(sid, row)]

/-- `supabase.from('sessions').update({status}).eq('id', sid)`. -/
def sessionsUpdateStatus (tbl : List (String × SessionRow)) (sid : String)
    (st : SessionStatus) : List (String × SessionRow) :=
  match tbl with
  | [] => []
  | (k, r) :: rest =>
      if k = sid then (k, { r with status := st }) :: sessionsUpdateStatus rest sid st
      else (k, r) :: sessionsUpdateStatus rest sid st

/-- `supabase.from('sessions').update({status, duration}).eq('id', sid)`. -/
def sessionsUpdateStatusDuration (tbl : List (String × SessionRow))
    (sid : String) (st : SessionStatus) (d : Int) :
    List (String × SessionRow) :=
  match tbl with
  | [] => []
  | (k, r) :: rest =>
      if k = sid then (k, { status := st, duration := d }) :: sessionsUpdateStatusDuration rest sid st d
      else (k, r) :: sessionsUpdateStatusDuration rest sid st d

/-- Whole server state: the in-memory `activeSessions` map plus the database
rows written by the handlers. -/
structure ServerState where
  activeSessions : List (String × SessionData)
  sessionsTable : List (String × SessionRow)
  chunksTable : List ChunkRow
  transcriptsTable : List TranscriptRow
deriving DecidableEq, Repr

/-- Socket emissions performed by the handlers. -/
inductive Emit
| sessionStatus (sessionId : String) (status : SessionStatus)
| chunkProcessing (sessionId : String) (chunkIndex : Nat)
| transcriptionUpdate (sessionId : String) (chunkIndex : Nat) (text : String)
| transcriptionError (sessionId : String) (chunkIndex : Nat)
| sessionComplete (sessionId : String) (duration : Int) (transcript : String)
| errorMessage (message : String)
deriving DecidableEq, Repr

/-- The fresh `SessionData` built by the `start-session` handler
(lines 45–54). -/
def freshSessionData (sid : String) (uid : Option String) (src : AudioSource)
    (now : Int) : SessionData :=
  { sessionId := sid
    userId := uid
    audioChunks := []
    transcriptChunks := []
    chunkIndex := 0
    startTime := now
    pausedAt := none
    totalPausedDuration := 0
    audioSource := src }

/-- `start-session` handler (lines 35–86): unconditionally `set`s a fresh
record into `activeSessions`, inserts the database row (insert error logged
and ignored), and emits `session-status: recording`. -/
def startSession (st : ServerState) (sid : String) (uid : Option String)
    (src : AudioSource) (now : Int) : ServerState × List Emit :=
  ({ st with
      activeSessions := mapSet st.activeSessions sid (freshSessionData sid uid src now)
      sessionsTable := sessionsInsert st.sessionsTable sid
        { status := SessionStatus.recording, duration := 0 } },
   [Emit.sessionStatus sid SessionStatus.recording])

/-- `audio-chunk` handler, synchronous part (lines 91–115): only checks that
the session exists; stores the buffer, assigns `chunkIndex` and increments it,
and emits `chunk-processing`. -/
def audioChunk (st : ServerState) (sid : String) (buf : AudioBuffer) :
    ServerState × List Emit :=
  match mapGet st.activeSessions sid with
  | none => (st, [Emit.errorMessage "Session not found"])
  | some s =>
      ({ st with
          activeSessions := mapSet st.activeSessions sid
            { s with
                audioChunks := s.audioChunks ++ [buf]
                chunkIndex := s.chunkIndex + 1 } },
       [Emit.chunkProcessing sid s.chunkIndex])

/-- Transcription success callback (lines 118–145): pushes the text onto
`transcriptChunks` in completion order, inserts the `transcript_chunks` row
and emits `transcription-update`.  The database insert and the emission also
happen when the session is no longer registered (the callback captured the
object). -/
def chunkTranscribed (st : ServerState) (sid : String) (idx : Nat)
    (text : String) : ServerState × List Emit :=
  match mapGet st.activeSessions sid with
  | some s =>
      ({ st with
          activeSessions := mapSet st.activeSessions sid
            { s with transcriptChunks := s.transcriptChunks ++ [text] }
          chunksTable := st.chunksTable ++ [{ session_id := sid, chunk_index := idx, text := text }] },
       [Emit.transcriptionUpdate sid idx text])
  | none =>
      ({ st with
          chunksTable := st.chunksTable ++ [{ session_id := sid, chunk_index := idx, text := text }] },
       [Emit.transcriptionUpdate sid idx text])

/-- Transcription failure callback (lines 146–152): logs and emits
`transcription-error` with the chunk index; no state change. -/
def chunkTranscriptionFailed (st : ServerState) (sid : String) (idx : Nat) :
    ServerState × List Emit :=
  (st, [Emit.transcriptionError sid idx])

/-- `pause-session` handler (lines 162–191): no status precondition; sets
`pausedAt := now` unconditionally and records `paused` in the database. -/
def pauseSession (st : ServerState) (sid : String) (now : Int) :
    ServerState × List Emit :=
  match mapGet st.activeSessions sid with
  | none => (st, [Emit.errorMessage "Session not found"])
  | some s =>
      ({ st with
          activeSessions := mapSet st.activeSessions sid { s with pausedAt := some now }
          sessionsTable := sessionsUpdateStatus st.sessionsTable sid SessionStatus.paused },
       [Emit.sessionStatus sid SessionStatus.paused])

/-- `resume-session` handler (lines 196–228): when `pausedAt` is set, adds
`now − pausedAt` to `totalPausedDuration` and clears it; always records
`recording` in the database. -/
def resumeSession (st : ServerState) (sid : String) (now : Int) :
    ServerState × List Emit :=
  match mapGet st.activeSessions sid with
  | none => (st, [Emit.errorMessage "Session not found"])
  | some s =>
      let s' :=
        match s.pausedAt with
        | some p =>
            { s with
                totalPausedDuration := s.totalPausedDuration + (now - p)
                pausedAt := none }
        | none => s
      ({ st with
          activeSessions := mapSet st.activeSessions sid s'
          sessionsTable := sessionsUpdateStatus st.sessionsTable sid SessionStatus.recording },
       [Emit.sessionStatus sid SessionStatus.recording])

/-- `session.transcriptChunks.join(' ')` (line 267). -/
def joinChunks (chunks : List String) : String :=
  String.intercalate " " chunks

/-- `Math.floor((Date.now() - session.startTime - session.totalPausedDuration)
/ 1000)` (lines 244–246); `Int.fdiv` is floor division. -/
def stopDuration (s : SessionData) (now : Int) : Int :=
  Int.fdiv (now - s.startTime - s.totalPausedDuration) 1000

/-- `stop-session` handler (lines 233–319).  `summaryOk` is the outcome of the
external `generateSummary` call: when it returns, the transcript row is
inserted, the session row becomes `completed`, `session-complete` is emitted
and the registry entry is deleted; when it throws, the `catch` block marks the
row `failed` and emits an error — the registry entry is NOT deleted there. -/
def stopSession (st : ServerState) (sid : String) (summaryOk : Bool)
    (now : Int) : ServerState × List Emit :=
  match mapGet st.activeSessions sid with
  | none => (st, [Emit.errorMessage "Session not found"])
  | some s =>
      let duration := stopDuration s now
      let tbl1 := sessionsUpdateStatusDuration st.sessionsTable sid
        SessionStatus.processing duration
      let fullTranscript := joinChunks s.transcriptChunks
      if summaryOk then
        ({ activeSessions := mapDelete st.activeSessions sid
           sessionsTable := sessionsUpdateStatus tbl1 sid SessionStatus.completed
           chunksTable := st.chunksTable
           transcriptsTable := st.transcriptsTable ++ [{ session_id := sid, full_text := fullTranscript }] },
         [Emit.sessionStatus sid SessionStatus.processing,
          Emit.sessionComplete sid duration fullTranscript])
      else
        ({ st with sessionsTable := sessionsUpdateStatus tbl1 sid SessionStatus.failed },
         [Emit.sessionStatus sid SessionStatus.processing,
          Emit.errorMessage "Failed to complete session processing"])

/-- Body of the auto-pause applied per session by the disconnect handler
(lines 329–334): only sessions with `pausedAt` unset are touched. -/
def autoPauseData (now : Int) (s : SessionData) : SessionData :=
  match s.pausedAt with
  | none => { s with pausedAt := some now }
  | some _ => s

/-- `disconnect` handler (lines 324–339): iterates ALL registered sessions;
any with `pausedAt` unset gets `pausedAt := now` and its database row set to
`paused`.  Nothing is emitted and nothing is removed from the registry. -/
def disconnectCleanup (st : ServerState) (now : Int) : ServerState × List Emit :=
  ({ st with
      activeSessions := st.activeSessions.map (fun kv => (kv.1, autoPauseData now kv.2))
      sessionsTable := st.activeSessions.foldl
        (fun tbl kv =>
          match kv.2.pausedAt with
          | none => sessionsUpdateStatus tbl kv.1 SessionStatus.paused
          | some _ => tbl)
        st.sessionsTable },
   [])

/-- Structured summary value returned by `generateSummary`
(`lib/gemini.ts`). -/
structure SummaryData where
  summary : String
  keyPoints : List String
  actionItems : List String
  decisions : List String
deriving DecidableEq, Repr

/-- Model of a successfully `JSON.parse`d object, keeping only the fields the
code reads; `none` models an absent (`undefined`) field. -/
structure ParsedSummary where
  summaryField : Option String
  keyPointsField : Option (List String)
  actionItemsField : Option (List String)
  decisionsField : Option (List String)
deriving DecidableEq, Repr

/-- Opening brace character. -/
def braceOpen : Char := Char.ofNat 123

/-- Closing brace character. -/
def braceClose : Char := Char.ofNat 125

/-- The regex `/\x7b[\s\S]*\x7d/` applied to the response text (line 339 of
`gemini.ts`): the (greedy, leftmost) match runs from the first opening brace
to the last closing brace, and exists exactly when a closing brace occurs
after an opening one. -/
def jsonCandidate (text : String) : Option String :=
  match text.data.findIdx? (fun c => c = braceOpen),
        (text.data.reverse.findIdx? (fun c => c = braceClose)) with
  | some i, some j' =>
      let j := text.data.length - 1 - j'
      if i < j then some (String.mk ((text.data.drop i).take (j - i + 1))) else none
  | _, _ => none

/-- JS `parsed.field || text` for a string field: `undefined` and the empty
string are falsy. -/
def jsStringOr (v : Option String) (d : String) : String :=
  match v with
  | some s => if s = "" then d else s
  | none => d

/-- JS `parsed.field || []` for an array field: only `undefined` is falsy
(an empty array is truthy). -/
def jsListOr (v : Option (List String)) : List String :=
  v.getD []

/-- The default object returned when no JSON could be extracted or parsed
(lines 353–359 of `gemini.ts`). -/
def rawFallback (text : String) : SummaryData :=
  { summary := text, keyPoints := [], actionItems := [], decisions := [] }

/-- Post-processing of a model response inside `generateSummary`
(lines 337–359): extract a brace-delimited candidate, `JSON.parse` it
(`parse` is the parsing oracle, `none` modelling a parse exception), read the
fields with `||` defaults, and fall back to the raw text otherwise. -/
def summarize (parse : String → Option ParsedSummary) (text : String) :
    SummaryData :=
  match jsonCandidate text with
  | some cand =>
      match parse cand with
      | some p =>
          { summary := jsStringOr p.summaryField text
            keyPoints := jsListOr p.keyPointsField
            actionItems := jsListOr p.actionItemsField
            decisions := jsListOr p.decisionsField }
      | none => rawFallback text
  | none => rawFallback text

/-- `generateSummary` (lines 313–364): the only `await` inside the `try` is
the model call itself (`apiResult`); every response string is post-processed
totally, and the `catch` rethrows only an API failure. -/
def generateSummary (parse : String → Option ParsedSummary)
    (apiResult : Except String String) : Except String SummaryData :=
  match apiResult with
  | Except.error e => Except.error ("Summary generation failed: " ++ e)
  | Except.ok text => Except.ok (summarize parse text)

/-- Events a trace can deliver to the server. -/
inductive Event
| start (sessionId : String) (userId : Option String) (src : AudioSource) (t : Int)
| chunk (sessionId : String) (buf : AudioBuffer)
| chunkDone (sessionId : String) (chunkIndex : Nat) (text : String)
| chunkFail (sessionId : String) (chunkIndex : Nat)
| pause (sessionId : String) (t : Int)
| resume (sessionId : String) (t : Int)
| stop (sessionId : String) (summaryOk : Bool) (t : Int)
| disconnect (t : Int)
deriving DecidableEq, Repr

/-- Dispatch one event to its handler. -/
def step (st : ServerState) : Event → ServerState × List Emit
  | Event.start sid uid src t => startSession st sid uid src t
  | Event.chunk sid buf => audioChunk st sid buf
  | Event.chunkDone sid idx text => chunkTranscribed st sid idx text
  | Event.chunkFail sid idx => chunkTranscriptionFailed st sid idx
  | Event.pause sid t => pauseSession st sid t
  | Event.resume sid t => resumeSession st sid t
  | Event.stop sid ok t => stopSession st sid ok t
  | Event.disconnect t => disconnectCleanup st t

def execStep (st : ServerState) (e : Event) : ServerState :=
  (step st e).1

def run (st : ServerState) (tr : List Event) : ServerState :=
  tr.foldl execStep st

def initialState : ServerState :=
  { activeSessions := [], sessionsTable := [], chunksTable := [], transcriptsTable := [] }

/-! ### Association-map lemmas -/

theorem mapGet_mapSet {α : Type} (m : List (String × α)) (k k' : String) (v : α) :
    mapGet (mapSet m k v) k' = if k = k' then some v else mapGet m k' := by
  induction m with
  | nil =>
      by_cases h : k = k' <;> simp [mapGet, mapSet, h]
  | cons kv rest ih =>
      obtain ⟨k₀, v₀⟩ := kv
      by_cases h0 : k₀ = k
      · subst h0
        by_cases h : k₀ = k' <;> simp [mapGet, mapSet, h]
      · by_cases h : k₀ = k'
        · subst h
          have hkk : ¬ k = k₀ := fun hh => h0 hh.symm
          simp [mapGet, mapSet, h0, hkk]
        · simp [mapGet, mapSet, h0, h, ih]

theorem mapGet_mapDelete {α : Type} (m : List (String × α)) (k k' : String) :
    mapGet (mapDelete m k) k' = if k = k' then none else mapGet m k' := by
  induction m with
  | nil => simp [mapGet, mapDelete]
  | cons kv rest ih =>
      obtain ⟨k₀, v₀⟩ := kv
      by_cases h0 : k₀ = k
      · subst h0
        have : ¬ (k₀ ≠ k₀) := by simp
        by_cases h : k₀ = k'
        · subst h
          simpa [mapGet, mapDelete, List.filter] using ih
        · simp only [mapDelete, List.filter] at ih ⊢
          simpa [mapGet, h] using ih
      · by_cases h : k₀ = k'
        · subst h
          have hkk : ¬ k = k₀ := fun hh => h0 hh.symm
          simp only [mapDelete, List.filter] at ih ⊢
          simp [mapGet, h0, hkk]
        · simp only [mapDelete, List.filter] at ih ⊢
          simpa [mapGet, h0, h] using ih

theorem mapGet_mapMap {α β : Type} (f : α → β) (m : List (String × α))
    (k : String) :
    mapGet (m.map (fun kv => (kv.1, f kv.2))) k = (mapGet m k).map f := by
  induction m with
  | nil => simp [mapGet]
  | cons kv rest ih =>
      obtain ⟨k₀, v₀⟩ := kv
      by_cases h : k₀ = k <;> simp [mapGet, h, ih]

theorem mapGet_sessionsUpdateStatus (tbl : List (String × SessionRow))
    (sid sid' : String) (status : SessionStatus) :
    mapGet (sessionsUpdateStatus tbl sid status) sid' =
      if sid = sid' then (mapGet tbl sid').map (fun r => { r with status := status })
      else mapGet tbl sid' := by
  induction tbl with
  | nil => by_cases h : sid = sid' <;> simp [mapGet, sessionsUpdateStatus, h]
  | cons kv rest ih =>
      obtain ⟨k₀, r₀⟩ := kv
      by_cases h0 : k₀ = sid
      · subst h0
        by_cases h : k₀ = sid' <;> simp [mapGet, sessionsUpdateStatus, h, ih]
      · by_cases h : k₀ = sid'
        · subst h
          have hns : ¬ sid = k₀ := fun hh => h0 hh.symm
          simp [mapGet, sessionsUpdateStatus, h0, hns]
        · simp [mapGet, sessionsUpdateStatus, h0, h, ih]

theorem mapGet_sessionsUpdateStatusDuration (tbl : List (String × SessionRow))
    (sid sid' : String) (status : SessionStatus) (d : Int) :
    mapGet (sessionsUpdateStatusDuration tbl sid status d) sid' =
      if sid = sid' then (mapGet tbl sid').map (fun _ => { status := status, duration := d })
      else mapGet tbl sid' := by
  induction tbl with
  | nil => by_cases h : sid = sid' <;> simp [mapGet, sessionsUpdateStatusDuration, h]
  | cons kv rest ih =>
      obtain ⟨k₀, r₀⟩ := kv
      by_cases h0 : k₀ = sid
      · subst h0
        by_cases h : k₀ = sid' <;> simp [mapGet, sessionsUpdateStatusDuration, h, ih]
      · by_cases h : k₀ = sid'
        · subst h
          have hns : ¬ sid = k₀ := fun hh => h0 hh.symm
          simp [mapGet, sessionsUpdateStatusDuration, h0, hns]
        · simp [mapGet, sessionsUpdateStatusDuration, h0, h, ih]

/-! ### Clock-monotonicity invariant

Real executions draw every timestamp from `Date.now()`, so the times seen by
successive handler invocations never decrease.  `timeMono` captures this for
a trace, and `TimeOK` is the per-session bookkeeping invariant it preserves:
the accumulated pause time never outruns the wall clock. -/

def TimeOK (T : Int) (s : SessionData) : Prop :=
  s.startTime + s.totalPausedDuration ≤ T ∧
    0 ≤ s.totalPausedDuration ∧
    ∀ p, s.pausedAt = some p → s.startTime + s.totalPausedDuration ≤ p ∧ p ≤ T

def StateTimeOK (T : Int) (st : ServerState) : Prop :=
  ∀ sid s, mapGet st.activeSessions sid = some s → TimeOK T s

/-- The `Date.now()` reading a handler invocation uses, when it uses one. -/
def eventTime : Event → Option Int
  | Event.start _ _ _ t => some t
  | Event.chunk _ _ => none
  | Event.chunkDone _ _ _ => none
  | Event.chunkFail _ _ => none
  | Event.pause _ t => some t
  | Event.resume _ t => some t
  | Event.stop _ _ t => some t
  | Event.disconnect t => some t

/-- Event times along the trace never decrease, starting from lower bound `T`. -/
def timeMono : Int → List Event → Prop
  | _, [] => True
  | T, e :: tr =>
      match eventTime e with
      | none => timeMono T tr
      | some u => T ≤ u ∧ timeMono u tr

/-- Last event time of a trace (. defaulting to the lower bound). -/
def endTime : Int → List Event → Int
  | T, [] => T
  | T, e :: tr =>
      match eventTime e with
      | none => endTime T tr
      | some u => endTime u tr

theorem timeOK_mono {T T' : Int} {s : SessionData} (h : T ≤ T')
    (hs : TimeOK T s) : TimeOK T' s := by
  obtain ⟨h1, h2, h3⟩ := hs
  exact ⟨le_trans h1 h, h2, fun p hp => ⟨(h3 p hp).1, le_trans (h3 p hp).2 h⟩⟩

theorem timeOK_of_fields {T : Int} {s s' : SessionData}
    (h1 : s'.startTime = s.startTime)
    (h2 : s'.totalPausedDuration = s.totalPausedDuration)
    (h3 : s'.pausedAt = s.pausedAt) (h : TimeOK T s) : TimeOK T s' := by
  unfold TimeOK at *
  rw [h1, h2, h3]
  exact h

theorem timeOK_fresh (sid : String) (uid : Option String) (src : AudioSource)
    (u : Int) : TimeOK u (freshSessionData sid uid src u) := by
  refine ⟨?_, ?_, ?_⟩ <;> simp [freshSessionData]

theorem timeOK_setPausedAt {T u : Int} {s : SessionData} (h : TimeOK T s)
    (hu : T ≤ u) : TimeOK u { s with pausedAt := some u } := by
  obtain ⟨h1, h2, _⟩ := h
  refine ⟨?_, ?_, ?_⟩
  · exact le_trans h1 hu
  · exact h2
  · intro p hp
    simp only [Option.some.injEq] at hp
    subst hp
    exact ⟨le_trans h1 hu, le_refl _⟩

theorem timeOK_autoPause {T u : Int} {s : SessionData} (h : TimeOK T s)
    (hu : T ≤ u) : TimeOK u (autoPauseData u s) := by
  unfold autoPauseData
  cases hp : s.pausedAt with
  | none => exact timeOK_setPausedAt h hu
  | some p => exact timeOK_mono hu h

theorem timeOK_resume {T u : Int} {s : SessionData} {p : Int} (h : TimeOK T s)
    (hp : s.pausedAt = some p) (hu : T ≤ u) :
    TimeOK u { s with
      totalPausedDuration := s.totalPausedDuration + (u - p), pausedAt := none } := by
  obtain ⟨h1, h2, h3⟩ := h
  obtain ⟨hp1, hp2⟩ := h3 p hp
  refine ⟨?_, ?_, ?_⟩
  · simp only []
    omega
  · simp only []
    omega
  · intro q hq
    simp at hq

theorem stateTimeOK_execStep_notime {T : Int} {st : ServerState} {e : Event}
    (he : eventTime e = none) (hst : StateTimeOK T st) :
    StateTimeOK T (execStep st e) := by
  cases e with
  | start sid uid src t => simp [eventTime] at he
  | pause sid t => simp [eventTime] at he
  | resume sid t => simp [eventTime] at he
  | stop sid ok t => simp [eventTime] at he
  | disconnect t => simp [eventTime] at he
  | chunk sid buf =>
      intro sid' s' h'
      cases hm : mapGet st.activeSessions sid with
      | none =>
          simp only [execStep, step, audioChunk, hm] at h'
          exact hst sid' s' h'
      | some s =>
          simp only [execStep, step, audioChunk, hm, mapGet_mapSet] at h'
          split at h'
          · simp only [Option.some.injEq] at h'
            subst h'
            exact timeOK_of_fields rfl rfl rfl (hst sid s hm)
          · exact hst sid' s' h'
  | chunkDone sid idx text =>
      intro sid' s' h'
      cases hm : mapGet st.activeSessions sid with
      | none =>
          simp only [execStep, step, chunkTranscribed, hm] at h'
          exact hst sid' s' h'
      | some s =>
          simp only [execStep, step, chunkTranscribed, hm, mapGet_mapSet] at h'
          split at h'
          · simp only [Option.some.injEq] at h'
            subst h'
            exact timeOK_of_fields rfl rfl rfl (hst sid s hm)
          · exact hst sid' s' h'
  | chunkFail sid idx =>
      intro sid' s' h'
      simp only [execStep, step, chunkTranscriptionFailed] at h'
      exact hst sid' s' h'

theorem stateTimeOK_execStep_time {T u : Int} {st : ServerState} {e : Event}
    (he : eventTime e = some u) (hT : T ≤ u) (hst : StateTimeOK T st) :
    StateTimeOK u (execStep st e) := by
  cases e with
  | chunk sid buf => simp [eventTime] at he
  | chunkDone sid idx text => simp [eventTime] at he
  | chunkFail sid idx => simp [eventTime] at he
  | start sid uid src t =>
      obtain rfl : t = u := by simpa [eventTime] using he
      intro sid' s' h'
      simp only [execStep, step, startSession, mapGet_mapSet] at h'
      split at h'
      · simp only [Option.some.injEq] at h'
        subst h'
        exact timeOK_fresh sid uid src t
      · exact timeOK_mono hT (hst sid' s' h')
  | pause sid t =>
      obtain rfl : t = u := by simpa [eventTime] using he
      intro sid' s' h'
      cases hm : mapGet st.activeSessions sid with
      | none =>
          simp only [execStep, step, pauseSession, hm] at h'
          exact timeOK_mono hT (hst sid' s' h')
      | some s =>
          simp only [execStep, step, pauseSession, hm, mapGet_mapSet] at h'
          split at h'
          · simp only [Option.some.injEq] at h'
            subst h'
            exact timeOK_setPausedAt (hst sid s hm) hT
          · exact timeOK_mono hT (hst sid' s' h')
  | resume sid t =>
      obtain rfl : t = u := by simpa [eventTime] using he
      intro sid' s' h'
      cases hm : mapGet st.activeSessions sid with
      | none =>
          simp only [execStep, step, resumeSession, hm] at h'
          exact timeOK_mono hT (hst sid' s' h')
      | some s =>
          cases hp : s.pausedAt with
          | none =>
              simp only [execStep, step, resumeSession, hm, hp, mapGet_mapSet] at h'
              split at h'
              · simp only [Option.some.injEq] at h'
                subst h'
                exact timeOK_mono hT (hst sid s hm)
              · exact timeOK_mono hT (hst sid' s' h')
          | some p =>
              simp only [execStep, step, resumeSession, hm, hp, mapGet_mapSet] at h'
              split at h'
              · simp only [Option.some.injEq] at h'
                subst h'
                exact timeOK_resume (hst sid s hm) hp hT
              · exact timeOK_mono hT (hst sid' s' h')
  | stop sid ok t =>
      obtain rfl : t = u := by simpa [eventTime] using he
      intro sid' s' h'
      cases hm : mapGet st.activeSessions sid with
      | none =>
          simp only [execStep, step, stopSession, hm] at h'
          exact timeOK_mono hT (hst sid' s' h')
      | some s =>
          cases ok with
          | true =>
              simp only [execStep, step, stopSession, hm, if_pos, mapGet_mapDelete] at h'
              split at h'
              · exact absurd h' (by simp)
              · exact timeOK_mono hT (hst sid' s' h')
          | false =>
              simp only [execStep, step, stopSession, hm] at h'
              exact timeOK_mono hT (hst sid' s' h')
  | disconnect t =>
      obtain rfl : t = u := by simpa [eventTime] using he
      intro sid' s' h'
      simp only [execStep, step, disconnectCleanup, mapGet_mapMap] at h'
      cases hm : mapGet st.activeSessions sid' with
      | none => rw [hm] at h'; simp at h'
      | some s =>
          rw [hm] at h'
          simp only [Option.map_some', Option.some.injEq] at h'
          subst h'
          exact timeOK_autoPause (hst sid' s hm) hT

theorem stateTimeOK_run :
    ∀ (tr : List Event) (T : Int) (st : ServerState),
      timeMono T tr → StateTimeOK T st →
      StateTimeOK (endTime T tr) (run st tr) := by
  intro tr
  induction tr with
  | nil =>
      intro T st _ hst
      simpa [run, endTime] using hst
  | cons e tr ih =>
      intro T st hmono hst
      have hrun : run st (e :: tr) = run (execStep st e) tr := rfl
      cases he : eventTime e with
      | none =>
          have hm : timeMono T tr := by simpa [timeMono, he] using hmono
          rw [hrun]
          have hres := ih T (execStep st e) hm (stateTimeOK_execStep_notime he hst)
          simpa [endTime, he] using hres
      | some u =>
          have hm : T ≤ u ∧ timeMono u tr := by simpa [timeMono, he] using hmono
          rw [hrun]
          have hres := ih u (execStep st e) hm.2 (stateTimeOK_execStep_time he hm.1 hst)
          simpa [endTime, he] using hres

/-! ### Claim C1 -/

/-- Claim C1: the claim states that the reconstructed full text orders chunk
texts by ascending sequence number regardless of completion order.  The code
instead pushes each transcription onto `transcriptChunks` as it completes and
joins in that completion order: with chunks 0 and 1 ingested and chunk 1's
transcription completing first, the final transcript emitted and persisted is
`text(b1) ++ " " ++ text(b0)`, not `text(b0) ++ " " ++ text(b1)`. -/
theorem c1_completion_order_failing_input :
    (step (run initialState
        [Event.start "s" none AudioSource.microphone 0,
         Event.chunk "s" [0], Event.chunk "s" [1],
         Event.chunkDone "s" 1 "one", Event.chunkDone "s" 0 "zero"])
      (Event.stop "s" true 1000)).2 =
      [Emit.sessionStatus "s" SessionStatus.processing,
       Emit.sessionComplete "s" 1 "one zero"] ∧
    (run initialState
        [Event.start "s" none AudioSource.microphone 0,
         Event.chunk "s" [0], Event.chunk "s" [1],
         Event.chunkDone "s" 1 "one", Event.chunkDone "s" 0 "zero",
         Event.stop "s" true 1000]).transcriptsTable =
      [{ session_id := "s", full_text := "one zero" }] ∧
    "one zero" ≠ "zero one" := by
  refine ⟨by decide, by decide, by decide⟩

/-! ### Claim C2 -/

/-- Claim C2, counterexample: a chunk ingested while the recorded status is
`paused` is NOT rejected with `InvalidState`: the handler accepts it (emitting
`chunk-processing`, no error) and increments the chunk counter from 0 to 1. -/
theorem c2_paused_chunk_accepted_counterexample :
    (mapGet (run initialState
        [Event.start "s" none AudioSource.microphone 0,
         Event.pause "s" 5]).sessionsTable "s").map SessionRow.status =
      some SessionStatus.paused ∧
    (step (run initialState
        [Event.start "s" none AudioSource.microphone 0,
         Event.pause "s" 5]) (Event.chunk "s" [7])).2 =
      [Emit.chunkProcessing "s" 0] ∧
    (mapGet (run initialState
        [Event.start "s" none AudioSource.microphone 0,
         Event.pause "s" 5, Event.chunk "s" [7]]).activeSessions "s").map
        SessionData.chunkIndex = some 1 := by
  refine ⟨by decide, by decide, by decide⟩

/-- Claim C2, amended: the `audio-chunk` handler checks only that a
SessionState exists.  For a registered session it accepts the chunk whatever
the status (even `paused`/`processing`), appending the buffer, incrementing
the sequence counter and emitting `chunk-processing`; only a missing
SessionState is rejected, with a "Session not found" error. -/
theorem c2_chunk_ingestion_amended (st : ServerState) (sid : String)
    (buf : AudioBuffer) :
    (∀ s, mapGet st.activeSessions sid = some s →
      audioChunk st sid buf =
        ({ st with
            activeSessions := mapSet st.activeSessions sid
              { s with
                  audioChunks := s.audioChunks ++ [buf]
                  chunkIndex := s.chunkIndex + 1 } },
         [Emit.chunkProcessing sid s.chunkIndex])) ∧
    (mapGet st.activeSessions sid = none →
      audioChunk st sid buf = (st, [Emit.errorMessage "Session not found"])) := by
  constructor
  · intro s hs
    simp [audioChunk, hs]
  · intro hn
    simp [audioChunk, hn]

/-- Claim C2, witness instantiating the amended theorem on a concrete paused
session. -/
theorem c2_chunk_ingestion_witness :
    audioChunk (run initialState
        [Event.start "s" none AudioSource.microphone 0, Event.pause "s" 5])
        "s" [7] =
      ({ activeSessions := [("s",
          { sessionId := "s", userId := none, audioChunks := [[7]],
            transcriptChunks := [], chunkIndex := 1, startTime := 0,
            pausedAt := some 5, totalPausedDuration := 0,
            audioSource := AudioSource.microphone })]
         sessionsTable := [("s", { status := SessionStatus.paused, duration := 0 })]
         chunksTable := []
         transcriptsTable := [] },
       [Emit.chunkProcessing "s" 0]) := by
  have h := (c2_chunk_ingestion_amended (run initialState
      [Event.start "s" none AudioSource.microphone 0, Event.pause "s" 5])
      "s" [7]).1
    { sessionId := "s", userId := none, audioChunks := [],
      transcriptChunks := [], chunkIndex := 0, startTime := 0,
      pausedAt := some 5, totalPausedDuration := 0,
      audioSource := AudioSource.microphone }
    (by decide)
  exact h.trans (by decide)

/-! ### Claim C3 -/

/-- Claim C3, counterexample: when summary generation fails during stop
finalization the session's database row does become `failed` and an error is
emitted, but — contrary to the claim — the session is NOT removed from the
in-memory registry: its entry is still present afterwards. -/
theorem c3_registry_not_removed_counterexample :
    (step (run initialState [Event.start "s" none AudioSource.microphone 0])
        (Event.stop "s" false 5)).2 =
      [Emit.sessionStatus "s" SessionStatus.processing,
       Emit.errorMessage "Failed to complete session processing"] ∧
    (mapGet (run initialState
        [Event.start "s" none AudioSource.microphone 0,
         Event.stop "s" false 5]).sessionsTable "s").map SessionRow.status =
      some SessionStatus.failed ∧
    mapGet (run initialState
        [Event.start "s" none AudioSource.microphone 0,
         Event.stop "s" false 5]).activeSessions "s" =
      some (freshSessionData "s" none AudioSource.microphone 0) := by
  refine ⟨by decide, by decide, by decide⟩

/-- Claim C3, amended: on summary failure during stop finalization the
session's row is marked `failed` (keeping the duration written at the start of
finalization) and an error message is emitted to the caller, but the registry
entry survives: `activeSessions` is unchanged, so the session is still
registered. -/
theorem c3_stop_failure_amended (st : ServerState) (sid : String)
    (s : SessionData) (t : Int)
    (hs : mapGet st.activeSessions sid = some s) :
    (stopSession st sid false t).1.activeSessions = st.activeSessions ∧
    mapGet (stopSession st sid false t).1.activeSessions sid = some s ∧
    (∀ r, mapGet st.sessionsTable sid = some r →
      mapGet (stopSession st sid false t).1.sessionsTable sid =
        some { status := SessionStatus.failed, duration := stopDuration s t }) ∧
    (stopSession st sid false t).2 =
      [Emit.sessionStatus sid SessionStatus.processing,
       Emit.errorMessage "Failed to complete session processing"] := by
  refine ⟨?_, ?_, ?_, ?_⟩
  · simp [stopSession, hs]
  · simp [stopSession, hs]
  · intro r hr
    simp [stopSession, hs, mapGet_sessionsUpdateStatus,
      mapGet_sessionsUpdateStatusDuration, hr]
  · simp [stopSession, hs]

/-- Claim C3, witness instantiating the amended theorem on a concrete
session. -/
theorem c3_stop_failure_witness :
    mapGet (stopSession (run initialState
        [Event.start "s" none AudioSource.microphone 0]) "s" false 5).1.activeSessions
        "s" = some (freshSessionData "s" none AudioSource.microphone 0) ∧
    mapGet (stopSession (run initialState
        [Event.start "s" none AudioSource.microphone 0]) "s" false 5).1.sessionsTable
        "s" = some { status := SessionStatus.failed, duration := 0 } := by
  have h := c3_stop_failure_amended (run initialState
      [Event.start "s" none AudioSource.microphone 0]) "s"
      (freshSessionData "s" none AudioSource.microphone 0) 5 (by decide)
  refine ⟨h.2.1, ?_⟩
  have h3 := h.2.2.1 { status := SessionStatus.recording, duration := 0 } (by decide)
  exact h3.trans (by decide)

/-! ### Claim C4 -/

theorem autoPauseData_idem (t t' : Int) (s : SessionData) :
    autoPauseData t' (autoPauseData t s) = autoPauseData t s := by
  cases hp : s.pausedAt <;> simp [autoPauseData, hp]

theorem disconnect_map_idem (m : List (String × SessionData)) (t t' : Int) :
    (m.map (fun kv => (kv.1, autoPauseData t kv.2))).map
        (fun kv => (kv.1, autoPauseData t' kv.2)) =
      m.map (fun kv => (kv.1, autoPauseData t kv.2)) := by
  induction m with
  | nil => rfl
  | cons kv rest ih =>
      simp [autoPauseData_idem, ih]

theorem disconnect_fold_idem (m : List (String × SessionData)) (t : Int) :
    ∀ tbl : List (String × SessionRow),
      (m.map (fun kv => (kv.1, autoPauseData t kv.2))).foldl
        (fun tbl kv =>
          match kv.2.pausedAt with
          | none => sessionsUpdateStatus tbl kv.1 SessionStatus.paused
          | some _ => tbl) tbl = tbl := by
  induction m with
  | nil => intro tbl; rfl
  | cons kv rest ih =>
      intro tbl
      obtain ⟨k, s⟩ := kv
      cases hp : (autoPauseData t s).pausedAt with
      | none =>
          exfalso
          cases hq : s.pausedAt <;> simp [autoPauseData, hq] at hp
      | some p =>
          simp only [List.map, List.foldl, hp]
          exact ih tbl

/-- Claim C4, counterexample: after a start and a failed stop the session is
terminal (`failed`) yet still registered with `pausedAt` unset; a subsequent
client disconnect then mutates it — `pausedAt` is set and the recorded status
is overwritten from `failed` to `paused` — contradicting "disconnect never
changes the state of a session that is already ... `failed`". -/
theorem c4_disconnect_failed_session_counterexample :
    (mapGet (run initialState
        [Event.start "s" none AudioSource.microphone 0,
         Event.stop "s" false 10]).sessionsTable "s").map SessionRow.status =
      some SessionStatus.failed ∧
    (mapGet (run initialState
        [Event.start "s" none AudioSource.microphone 0,
         Event.stop "s" false 10]).activeSessions "s").map SessionData.pausedAt =
      some none ∧
    (mapGet (run initialState
        [Event.start "s" none AudioSource.microphone 0,
         Event.stop "s" false 10,
         Event.disconnect 20]).activeSessions "s").map SessionData.pausedAt =
      some (some 20) ∧
    (mapGet (run initialState
        [Event.start "s" none AudioSource.microphone 0,
         Event.stop "s" false 10,
         Event.disconnect 20]).sessionsTable "s").map SessionRow.status =
      some SessionStatus.paused := by
  refine ⟨by decide, by decide, by decide, by decide⟩

/-- Claim C4, amended: a client disconnect auto-pauses exactly the registered
sessions whose `pausedAt` is unset — regardless of their recorded status
(including `processing` and `failed` sessions still in the registry) — by
setting `pausedAt := now` and recording status `paused`; sessions with
`pausedAt` already set are left untouched; every session remains in the
registry; and a second disconnect with no intervening resume changes nothing
(idempotent). -/
theorem c4_disconnect_amended (st : ServerState) (t t' : Int) :
    (∀ sid s, mapGet st.activeSessions sid = some s →
      mapGet (execStep st (Event.disconnect t)).activeSessions sid =
        some (autoPauseData t s)) ∧
    (∀ sid s, mapGet st.activeSessions sid = some s → s.pausedAt ≠ none →
      mapGet (execStep st (Event.disconnect t)).activeSessions sid = some s) ∧
    execStep (execStep st (Event.disconnect t)) (Event.disconnect t') =
      execStep st (Event.disconnect t) := by
  refine ⟨?_, ?_, ?_⟩
  · intro sid s hs
    simp [execStep, step, disconnectCleanup, mapGet_mapMap, hs]
  · intro sid s hs hp
    have h1 : mapGet (execStep st (Event.disconnect t)).activeSessions sid =
        some (autoPauseData t s) := by
      simp [execStep, step, disconnectCleanup, mapGet_mapMap, hs]
    rw [h1]
    cases hq : s.pausedAt with
    | none => exact absurd hq hp
    | some p => simp [autoPauseData, hq]
  · simp only [execStep, step, disconnectCleanup]
    congr 1
    · exact disconnect_map_idem st.activeSessions t t'
    · exact disconnect_fold_idem st.activeSessions t _

/-- Claim C4, witness instantiating the amended theorem on a concrete state
with one recording and one already-paused session. -/
theorem c4_disconnect_witness :
    mapGet (execStep (run initialState
        [Event.start "a" none AudioSource.microphone 0,
         Event.start "b" none AudioSource.tab_share 2,
         Event.pause "b" 3]) (Event.disconnect 9)).activeSessions "a" =
      some (autoPauseData 9 (freshSessionData "a" none AudioSource.microphone 0)) ∧
    mapGet (execStep (run initialState
        [Event.start "a" none AudioSource.microphone 0,
         Event.start "b" none AudioSource.tab_share 2,
         Event.pause "b" 3]) (Event.disconnect 9)).activeSessions "b" =
      some { freshSessionData "b" none AudioSource.tab_share 2 with pausedAt := some 3 } := by
  have h := c4_disconnect_amended (run initialState
      [Event.start "a" none AudioSource.microphone 0,
       Event.start "b" none AudioSource.tab_share 2,
       Event.pause "b" 3]) 9 11
  refine ⟨h.1 "a" (freshSessionData "a" none AudioSource.microphone 0) (by decide), ?_⟩
  exact h.2.1 "b"
    { freshSessionData "b" none AudioSource.tab_share 2 with pausedAt := some 3 }
    (by decide) (by decide)

/-! ### Claim C5 -/

/-- Effective recording duration as the spec's formula words it (for the
refinement comparison): `(now − startedAt) − totalPausedDuration
(− (now − pausedAt) if currently paused)`, floored to whole seconds. -/
def specEffectiveDuration (s : SessionData) (now : Int) : Int :=
  match s.pausedAt with
  | some p =>
      Int.fdiv (now - s.startTime - s.totalPausedDuration - (now - p)) 1000
  | none => Int.fdiv (now - s.startTime - s.totalPausedDuration) 1000

/-- Claim C5, counterexample: stopping a currently-paused session.  After
start at t=0 and pause at t=10s, a stop at t=50s computes 50 seconds — the
code never subtracts the ongoing pause interval `(now − pausedAt)` — while
the claim's formula yields 10 seconds. -/
theorem c5_duration_paused_counterexample :
    (step (run initialState
        [Event.start "s" none AudioSource.microphone 0,
         Event.pause "s" 10000]) (Event.stop "s" true 50000)).2 =
      [Emit.sessionStatus "s" SessionStatus.processing,
       Emit.sessionComplete "s" 50 ""] ∧
    (mapGet (run initialState
        [Event.start "s" none AudioSource.microphone 0,
         Event.pause "s" 10000]).activeSessions "s").map
        (fun s => specEffectiveDuration s 50000) = some 10 ∧
    (50 : Int) ≠ 10 := by
  refine ⟨by decide, by decide, by decide⟩

/-- Claim C5, amended: the duration computed at stop is
`⌊(now − startedAt − totalPausedDuration) / 1000⌋` with `now` captured once —
there is no extra subtraction for an ongoing pause.  For every state reached
from the empty server by a trace whose event times are non-decreasing (as
`Date.now()` readings are) and every stop time at or after the last event,
this value is non-negative; the scenario start → pause at 10s → resume at
40s → stop at 50s yields exactly 20 seconds (see the witness). -/
theorem c5_duration_amended (T t : Int) (tr : List Event) (sid : String)
    (s : SessionData) (hmono : timeMono T tr) (hend : endTime T tr ≤ t)
    (hs : mapGet (run initialState tr).activeSessions sid = some s) :
    (step (run initialState tr) (Event.stop sid true t)).2 =
      [Emit.sessionStatus sid SessionStatus.processing,
       Emit.sessionComplete sid
         (Int.fdiv (t - s.startTime - s.totalPausedDuration) 1000)
         (joinChunks s.transcriptChunks)] ∧
    0 ≤ Int.fdiv (t - s.startTime - s.totalPausedDuration) 1000 := by
  have hinit : StateTimeOK T initialState := by
    intro sid' s' h'
    simp [initialState, mapGet] at h'
  have hinv := stateTimeOK_run tr T initialState hmono hinit
  have hok := hinv sid s hs
  constructor
  · simp [step, stopSession, hs, stopDuration, joinChunks]
  · refine Int.fdiv_nonneg ?_ (by norm_num)
    have h1 := hok.1
    omega

/-- Claim C5, witness: the spec's own scenario — start at 0, pause at 10s,
resume at 40s, stop at 50s — run through the amended theorem, yielding a
20-second duration. -/
theorem c5_duration_witness :
    timeMono 0
      [Event.start "s" none AudioSource.microphone 0,
       Event.pause "s" 10000, Event.resume "s" 40000] ∧
    (step (run initialState
        [Event.start "s" none AudioSource.microphone 0,
         Event.pause "s" 10000, Event.resume "s" 40000])
      (Event.stop "s" true 50000)).2 =
      [Emit.sessionStatus "s" SessionStatus.processing,
       Emit.sessionComplete "s" 20 ""] := by
  have h := c5_duration_amended 0 50000
    [Event.start "s" none AudioSource.microphone 0,
     Event.pause "s" 10000, Event.resume "s" 40000] "s"
    { sessionId := "s", userId := none, audioChunks := [],
      transcriptChunks := [], chunkIndex := 0, startTime := 0,
      pausedAt := none, totalPausedDuration := 30000,
      audioSource := AudioSource.microphone }
    (by norm_num [timeMono, eventTime]) (by decide) (by decide)
  exact ⟨by norm_num [timeMono, eventTime], h.1.trans (by decide)⟩

/-! ### Claim C6 -/

/-- Claim C6, counterexample: pausing an already-paused session (paused at
t=10, paused again at t=20) is not rejected — the handler emits the normal
`paused` status (no error) and overwrites `pausedAt` from 10 to 20. -/
theorem c6_double_pause_counterexample :
    (step (run initialState
        [Event.start "s" none AudioSource.microphone 0,
         Event.pause "s" 10]) (Event.pause "s" 20)).2 =
      [Emit.sessionStatus "s" SessionStatus.paused] ∧
    (mapGet (run initialState
        [Event.start "s" none AudioSource.microphone 0,
         Event.pause "s" 10, Event.pause "s" 20]).activeSessions "s").map
        SessionData.pausedAt = some (some 20) ∧
    some (20 : Int) ≠ some 10 := by
  refine ⟨by decide, by decide, by decide⟩

/-- Claim C6, amended: calling `pause` on an already-paused session succeeds
like any other pause — no `InvalidState` error exists — and it DOES mutate
`pausedAt`, overwriting it with the new timestamp (discarding the earlier
pause instant). -/
theorem c6_double_pause_amended (st : ServerState) (sid : String)
    (s : SessionData) (p t : Int)
    (hs : mapGet st.activeSessions sid = some s)
    (_hp : s.pausedAt = some p) :
    pauseSession st sid t =
      ({ st with
          activeSessions := mapSet st.activeSessions sid { s with pausedAt := some t }
          sessionsTable := sessionsUpdateStatus st.sessionsTable sid SessionStatus.paused },
       [Emit.sessionStatus sid SessionStatus.paused]) := by
  simp [pauseSession, hs]

/-- Claim C6, witness instantiating the amended theorem on a session paused
at t=10 and paused again at t=20. -/
theorem c6_double_pause_witness :
    pauseSession (run initialState
        [Event.start "s" none AudioSource.microphone 0,
         Event.pause "s" 10]) "s" 20 =
      ({ activeSessions := [("s",
          { freshSessionData "s" none AudioSource.microphone 0 with pausedAt := some 20 })]
         sessionsTable := [("s", { status := SessionStatus.paused, duration := 0 })]
         chunksTable := []
         transcriptsTable := [] },
       [Emit.sessionStatus "s" SessionStatus.paused]) := by
  have h := c6_double_pause_amended (run initialState
      [Event.start "s" none AudioSource.microphone 0, Event.pause "s" 10])
      "s" { freshSessionData "s" none AudioSource.microphone 0 with pausedAt := some 10 }
      10 20 (by decide) (by decide)
  exact h.trans (by decide)

/-! ### Claim C7 -/

/-- Claim C7: a pause at `t1` followed by a resume at `t2` (elapsed `d = t2 −
t1`) adds exactly `d` to `totalPausedDuration` (exact in the model; "within
clock-resolution tolerance" in the spec), clears `pausedAt`, records status
`recording`, and leaves `chunkIndex` (the sequence counter), `chunkResults`
(`transcriptChunks`) and every other field unchanged — visible in the record
literal. -/
theorem c7_pause_resume_roundtrip (st : ServerState) (sid : String)
    (s : SessionData) (t1 t2 : Int)
    (hs : mapGet st.activeSessions sid = some s) :
    mapGet (execStep (execStep st (Event.pause sid t1))
        (Event.resume sid t2)).activeSessions sid =
      some { s with
              totalPausedDuration := s.totalPausedDuration + (t2 - t1)
              pausedAt := none } ∧
    (mapGet (execStep (execStep st (Event.pause sid t1))
        (Event.resume sid t2)).sessionsTable sid).map SessionRow.status =
      (mapGet st.sessionsTable sid).map (fun _ => SessionStatus.recording) := by
  have h1 : mapGet (pauseSession st sid t1).1.activeSessions sid =
      some { s with pausedAt := some t1 } := by
    simp [pauseSession, hs, mapGet_mapSet]
  have h2 : (pauseSession st sid t1).1.sessionsTable =
      sessionsUpdateStatus st.sessionsTable sid SessionStatus.paused := by
    simp [pauseSession, hs]
  constructor
  · simp [execStep, step, resumeSession, h1, mapGet_mapSet]
  · have h3 : (execStep (execStep st (Event.pause sid t1))
        (Event.resume sid t2)).sessionsTable =
        sessionsUpdateStatus (sessionsUpdateStatus st.sessionsTable sid
          SessionStatus.paused) sid SessionStatus.recording := by
      simp [execStep, step, resumeSession, h1, h2]
    rw [h3, mapGet_sessionsUpdateStatus, mapGet_sessionsUpdateStatus]
    cases mapGet st.sessionsTable sid <;> simp

/-- Claim C7, witness: pause at 10s and resume at 40s on a fresh session add
exactly 30000 ms of pause credit and leave the chunk fields untouched. -/
theorem c7_pause_resume_witness :
    mapGet (execStep (execStep (run initialState
        [Event.start "s" none AudioSource.microphone 0])
        (Event.pause "s" 10000)) (Event.resume "s" 40000)).activeSessions "s" =
      some { sessionId := "s", userId := none, audioChunks := [],
             transcriptChunks := [], chunkIndex := 0, startTime := 0,
             pausedAt := none, totalPausedDuration := 30000,
             audioSource := AudioSource.microphone } ∧
    (mapGet (execStep (execStep (run initialState
        [Event.start "s" none AudioSource.microphone 0])
        (Event.pause "s" 10000)) (Event.resume "s" 40000)).sessionsTable "s").map
      SessionRow.status = some SessionStatus.recording := by
  have h := c7_pause_resume_roundtrip (run initialState
      [Event.start "s" none AudioSource.microphone 0]) "s"
      (freshSessionData "s" none AudioSource.microphone 0) 10000 40000 (by decide)
  exact ⟨h.1.trans (by decide), h.2.trans (by decide)⟩

/-! ### Claim C8 -/

/-- Claim C8, counterexample: starting a session whose id is already
registered emits only the normal `recording` status (no `DuplicateSession`
error) and REPLACES the existing SessionState — a session with one ingested
chunk is overwritten by a fresh record with `chunkIndex = 0` and a new
`startTime`. -/
theorem c8_duplicate_start_counterexample :
    (mapGet (run initialState
        [Event.start "s" none AudioSource.microphone 0,
         Event.chunk "s" [1]]).activeSessions "s").map SessionData.chunkIndex =
      some 1 ∧
    (step (run initialState
        [Event.start "s" none AudioSource.microphone 0,
         Event.chunk "s" [1]])
      (Event.start "s" none AudioSource.microphone 5)).2 =
      [Emit.sessionStatus "s" SessionStatus.recording] ∧
    mapGet (run initialState
        [Event.start "s" none AudioSource.microphone 0,
         Event.chunk "s" [1],
         Event.start "s" none AudioSource.microphone 5]).activeSessions "s" =
      some (freshSessionData "s" none AudioSource.microphone 5) ∧
    freshSessionData "s" none AudioSource.microphone 5 ≠
      { freshSessionData "s" none AudioSource.microphone 0 with
          audioChunks := [[1]], chunkIndex := 1 } := by
  refine ⟨by decide, by decide, by decide, by decide⟩

/-- Claim C8, amended: `start-session` performs no duplicate check.  With an
entry already present for the id it emits the normal `recording` status (no
`DuplicateSession` error exists), replaces the in-memory SessionState with a
fresh one (so at most one entry per id still holds, but the existing state is
lost), and leaves the database row unchanged (the insert fails on the
duplicate key and the error is ignored). -/
theorem c8_start_overwrites_amended (st : ServerState) (sid : String)
    (uid : Option String) (src : AudioSource) (t : Int) (s : SessionData)
    (_hs : mapGet st.activeSessions sid = some s) :
    (startSession st sid uid src t).2 =
      [Emit.sessionStatus sid SessionStatus.recording] ∧
    mapGet (startSession st sid uid src t).1.activeSessions sid =
      some (freshSessionData sid uid src t) ∧
    (∀ r, mapGet st.sessionsTable sid = some r →
      (startSession st sid uid src t).1.sessionsTable = st.sessionsTable) := by
  refine ⟨rfl, ?_, ?_⟩
  · simp [startSession, mapGet_mapSet]
  · intro r hr
    simp [startSession, sessionsInsert, hr]

/-- Claim C8, witness: restarting id `"s"` over a session holding one chunk. -/
theorem c8_start_overwrites_witness :
    mapGet (startSession (run initialState
        [Event.start "s" none AudioSource.microphone 0, Event.chunk "s" [1]])
        "s" none AudioSource.microphone 5).1.activeSessions "s" =
      some (freshSessionData "s" none AudioSource.microphone 5) ∧
    (startSession (run initialState
        [Event.start "s" none AudioSource.microphone 0, Event.chunk "s" [1]])
        "s" none AudioSource.microphone 5).1.sessionsTable =
      (run initialState
        [Event.start "s" none AudioSource.microphone 0,
         Event.chunk "s" [1]]).sessionsTable := by
  have h := c8_start_overwrites_amended (run initialState
      [Event.start "s" none AudioSource.microphone 0, Event.chunk "s" [1]])
      "s" none AudioSource.microphone 5
      { freshSessionData "s" none AudioSource.microphone 0 with
          audioChunks := [[1]], chunkIndex := 1 } (by decide)
  exact ⟨h.2.1, h.2.2 { status := SessionStatus.recording, duration := 0 } (by decide)⟩

/-! ### Claim C9 -/

/-- Claim C9: one chunk's transcription failure does not abort the session.
Ingesting a chunk (sequence `s.chunkIndex`) whose transcription then fails
leaves `transcriptChunks` without any entry for it, emits a
`transcription-error` notification carrying the chunk's sequence number, and
a subsequent stop (whose summary call succeeds) still completes: the session
row becomes `completed`, the registry entry is removed, and the emitted full
text is the join of the previously accumulated chunks — the empty string when
the failed chunk was the only one. -/
theorem c9_chunk_failure_isolated (st : ServerState) (sid : String)
    (s : SessionData) (buf : AudioBuffer) (t : Int)
    (hs : mapGet st.activeSessions sid = some s) :
    (step (execStep st (Event.chunk sid buf))
        (Event.chunkFail sid s.chunkIndex)).2 =
      [Emit.transcriptionError sid s.chunkIndex] ∧
    mapGet (execStep (execStep st (Event.chunk sid buf))
        (Event.chunkFail sid s.chunkIndex)).activeSessions sid =
      some { s with
              audioChunks := s.audioChunks ++ [buf]
              chunkIndex := s.chunkIndex + 1 } ∧
    (stopSession (execStep (execStep st (Event.chunk sid buf))
        (Event.chunkFail sid s.chunkIndex)) sid true t).2 =
      [Emit.sessionStatus sid SessionStatus.processing,
       Emit.sessionComplete sid
         (Int.fdiv (t - s.startTime - s.totalPausedDuration) 1000)
         (joinChunks s.transcriptChunks)] ∧
    mapGet (stopSession (execStep (execStep st (Event.chunk sid buf))
        (Event.chunkFail sid s.chunkIndex)) sid true t).1.activeSessions sid =
      none ∧
    (∀ r, mapGet st.sessionsTable sid = some r →
      (mapGet (stopSession (execStep (execStep st (Event.chunk sid buf))
          (Event.chunkFail sid s.chunkIndex)) sid true t).1.sessionsTable sid).map
        SessionRow.status = some SessionStatus.completed) ∧
    (s.transcriptChunks = [] → joinChunks s.transcriptChunks = "") := by
  have hfail : execStep (execStep st (Event.chunk sid buf))
      (Event.chunkFail sid s.chunkIndex) = execStep st (Event.chunk sid buf) := rfl
  have hb : mapGet (execStep st (Event.chunk sid buf)).activeSessions sid =
      some { s with
              audioChunks := s.audioChunks ++ [buf]
              chunkIndex := s.chunkIndex + 1 } := by
    simp [execStep, step, audioChunk, hs, mapGet_mapSet]
  have htbl : (execStep st (Event.chunk sid buf)).sessionsTable =
      st.sessionsTable := by
    simp [execStep, step, audioChunk, hs]
  refine ⟨rfl, ?_, ?_, ?_, ?_, ?_⟩
  · rw [hfail]
    exact hb
  · rw [hfail]
    simp [stopSession, hb, stopDuration, joinChunks]
  · rw [hfail]
    simp [stopSession, hb, mapGet_mapDelete]
  · intro r hr
    rw [hfail]
    simp [stopSession, hb, htbl, mapGet_sessionsUpdateStatus,
      mapGet_sessionsUpdateStatusDuration, hr]
  · intro h0
    simp [joinChunks, h0, String.intercalate]

/-- Claim C9, witness: a fresh session whose only chunk fails still stops to
`completed` with the empty transcript. -/
theorem c9_chunk_failure_witness :
    (step (execStep (run initialState
        [Event.start "s" none AudioSource.microphone 0])
        (Event.chunk "s" [9])) (Event.chunkFail "s" 0)).2 =
      [Emit.transcriptionError "s" 0] ∧
    (stopSession (execStep (execStep (run initialState
        [Event.start "s" none AudioSource.microphone 0])
        (Event.chunk "s" [9])) (Event.chunkFail "s" 0)) "s" true 7000).2 =
      [Emit.sessionStatus "s" SessionStatus.processing,
       Emit.sessionComplete "s" 7 ""] ∧
    (mapGet (stopSession (execStep (execStep (run initialState
        [Event.start "s" none AudioSource.microphone 0])
        (Event.chunk "s" [9])) (Event.chunkFail "s" 0)) "s" true
        7000).1.sessionsTable "s").map SessionRow.status =
      some SessionStatus.completed := by
  have h := c9_chunk_failure_isolated (run initialState
      [Event.start "s" none AudioSource.microphone 0]) "s"
      (freshSessionData "s" none AudioSource.microphone 0) [9] 7000 (by decide)
  refine ⟨h.1, h.2.2.1.trans (by decide), ?_⟩
  exact (h.2.2.2.2.1 { status := SessionStatus.recording, duration := 0 }
    (by decide)).trans (by decide)

/-! ### Claim C10 -/

/-- Claim C10: `generateSummary` is total over model responses — when the
response contains no brace-delimited candidate, or `JSON.parse` of the
candidate fails, it returns the raw response text as the summary with empty
`keyPoints`/`actionItems`/`decisions`, and an error escapes `generateSummary`
exactly when the underlying API call itself fails, never because of malformed
model output. -/
theorem c10_summary_fallback (parse : String → Option ParsedSummary)
    (text : String) :
    (∀ e, generateSummary parse (Except.error e) =
      Except.error ("Summary generation failed: " ++ e)) ∧
    generateSummary parse (Except.ok text) = Except.ok (summarize parse text) ∧
    (jsonCandidate text = none → summarize parse text = rawFallback text) ∧
    (∀ cand, jsonCandidate text = some cand → parse cand = none →
      summarize parse text = rawFallback text) := by
  refine ⟨fun e => rfl, rfl, ?_, ?_⟩
  · intro h
    simp [summarize, h]
  · intro cand h hp
    simp [summarize, h, hp]

/-- Claim C10, witness: a brace-free response with an always-failing parse
oracle falls back to the raw text with empty lists. -/
theorem c10_summary_fallback_witness :
    jsonCandidate "plain prose answer" = none ∧
    summarize (fun _ => none) "plain prose answer" =
      { summary := "plain prose answer", keyPoints := [], actionItems := [],
        decisions := [] } := by
  have h := (c10_summary_fallback (fun _ => none) "plain prose answer").2.2.1
    (by decide)
  exact ⟨by decide, h.trans (by decide)⟩

end ScribeAI
